import Mathlib

/-!
Verification of the book-compilation pipeline (compiler_agent.py / github_agent.py).

Strings are modelled as `List Char` (Python `str` is a sequence of code points).
Python `s.find(pat)` is modelled by `firstIdx`, slices by `List.take`/`List.drop`
(both clamp out-of-range indices exactly as Python slices do), `str.strip()` by
`pyStrip`, and `re.sub(pattern, "", s)` for the concrete directive pattern by
`stripIncludes`.
-/

namespace Agitnt

/-- First index at which `pat` occurs in `s` (Python `s.find(pat)`, with
`none` standing for `-1`). -/
def firstIdx (pat : List Char) : List Char → Option Nat
  | [] => if pat.isPrefixOf ([] : List Char) then some 0 else none
  | c :: rest =>
    if pat.isPrefixOf (c :: rest) then some 0
    else (firstIdx pat rest).map (· + 1)

/-- Python `str` whitespace, as used by `str.strip()`. -/
def pySpace (c : Char) : Bool :=
  c = ' ' || c = '\t' || c = '\n' || c = '\r' || c = '\x0b' || c = '\x0c'

/-- Python `s.strip()`: remove leading and trailing whitespace. -/
def pyStrip (s : List Char) : List Char :=
  ((s.dropWhile pySpace).reverse.dropWhile pySpace).reverse

/-- `\begin{document}` marker searched for by `update_main_file`. -/
def beginMarker : List Char := "\\begin{document}".data

/-- `\end{document}` marker searched for by `update_main_file`. -/
def endMarker : List Char := "\\end{document}".data

/-- `\tableofcontents` marker searched for by `update_main_file`. -/
def tocMarker : List Char := "\\tableofcontents".data

/-- Literal part of the configured include pattern
`\\include{chapters/chapter(\d+)}`. -/
def includeLit : List Char := "\\include\x7bchapters/chapter".data

/-- If the regex `\\include\{chapters/chapter(\d+)\}` matches at the head of
`s`, the length of the match; otherwise `none`.  (`\d+` is greedy and `}` is
not a digit, so a match is exactly the literal, a maximal nonempty digit run,
then `}`.) -/
def matchIncludeLen (s : List Char) : Option Nat :=
  if includeLit.isPrefixOf s then
    let rest := s.drop includeLit.length
    let ds := rest.takeWhile Char.isDigit
    if ds.length > 0 then
      match rest.drop ds.length with
      | '\x7d' :: _ => some (includeLit.length + ds.length + 1)
      | _ => none
    else none
  else none

/-- Fuel-indexed helper for `stripIncludes`; every step consumes at least one
character, so fuel `s.length` always suffices and the `0` case is never
reached on a nonempty suffix. -/
def stripIncludesFuel : Nat → List Char → List Char
  | 0, s => s
  | _ + 1, [] => []
  | fuel + 1, c :: rest =>
    match matchIncludeLen (c :: rest) with
    | some n => stripIncludesFuel fuel (rest.drop (n - 1))
    | none => c :: stripIncludesFuel fuel rest

/-- `re.sub(include_pattern, "", s)`: scan left to right deleting every
non-overlapping match of the directive pattern. -/
def stripIncludes (s : List Char) : List Char :=
  stripIncludesFuel s.length s

/-- `int(...)` on a run of decimal digits. -/
def digitsToNat (ds : List Char) : Nat :=
  ds.foldl (fun a c => a * 10 + (c.toNat - 48)) 0

/-- `re.match(r"chapter(\d+)\.tex", file_name)` followed by
`(int(match.group(1)), f"chapters/{file_name}")` — `re.match` anchors at the
start only. -/
def parseChapterFile (name : List Char) : Option (Nat × List Char) :=
  if "chapter".data.isPrefixOf name then
    let rest := name.drop 7
    let ds := rest.takeWhile Char.isDigit
    if ds.length > 0 && ".tex".data.isPrefixOf (rest.drop ds.length) then
      some (digitsToNat ds, "chapters/".data ++ name)
    else none
  else none

/-- `chapter_path[:-4] if chapter_path.endswith(".tex") else chapter_path`. -/
def stripTexExt (p : List Char) : List Char :=
  if ".tex".data.isSuffixOf p then p.take (p.length - 4) else p

/-- Lexicographic `<=` on code-point sequences (Python `str` comparison). -/
def lexLeB : List Char → List Char → Bool
  | [], _ => true
  | _ :: _, [] => false
  | a :: as, b :: bs => if a < b then true else if a = b then lexLeB as bs else false

/-- Python tuple comparison on `(chapter_num, chapter_path)` pairs, as used by
`available_chapters.sort()`. -/
def pairLeB (a b : Nat × List Char) : Bool :=
  if a.1 < b.1 then true else if a.1 = b.1 then lexLeB a.2 b.2 else false

/-- The sort order of `available_chapters.sort()`, as a relation. -/
def pairLe (a b : Nat × List Char) : Prop := pairLeB a b = true

instance : DecidableRel pairLe := fun a b =>
  inferInstanceAs (Decidable (pairLeB a b = true))

/-- `available_chapters`: parse the chapter-directory listing and sort. -/
def sortChapters (files : List (List Char)) : List (Nat × List Char) :=
  List.insertionSort pairLe (files.filterMap parseChapterFile)

/-- The generated block: `"\n\n% Generated chapter includes\n"` followed by one
`\include{...}` line per chapter. -/
def chapterIncludesBlock (chs : List (Nat × List Char)) : List Char :=
  "\n\n% Generated chapter includes\n".data ++
    chs.foldr (fun p acc =>
      "\\include\x7b".data ++ stripTexExt p.2 ++ "\x7d\n".data ++ acc) []

/-- The pure text transformation performed by
`CompilerAgent.update_main_file`: `content` is the current main-file text and
`files` the directory listing of `chapters/`; `none` models `return False`
(document environment not found). -/
def updateMainContent (content : List Char) (files : List (List Char)) :
    Option (List Char) :=
  let avail := sortChapters files
  match firstIdx beginMarker content, firstIdx endMarker content with
  | some ds, some de =>
    let preamble := content.take (ds + beginMarker.length)
    let dc0 := (content.take de).drop (ds + beginMarker.length)
    let fmRest :=
      match firstIdx tocMarker dc0 with
      | none => (([] : List Char), dc0)
      | some tp =>
        let nl :=
          match firstIdx ['\n'] (dc0.drop tp) with
          | none => dc0.length
          | some k => tp + k
        (dc0.take (nl + 1), dc0.drop (nl + 1))
    let body := stripIncludes fmRest.2
    some (preamble ++ "\n".data ++ fmRest.1 ++ "\n".data ++
      chapterIncludesBlock avail ++ "\n".data ++ pyStrip body ++
      "\n\\end{document}\n".data)
  | _, _ => none

/-! ## Build Orchestrator (`compile_book`) -/

/-- The configuration fields consulted by `compile_book` (`run_bibtex`,
`latex_runs`). -/
structure Config where
  run_bibtex : Bool
  latex_runs : Nat

/-- Behaviour of one `subprocess.run` invocation: whether the call raises an
exception, and otherwise the recorded exit status. -/
structure PassOutcome where
  raises : Bool
  exitCode : Int

/-- External world seen by `compile_book`: the outcome of the i-th command
invocation, and whether `<main_name>.pdf` exists in the working directory at
the terminal check. -/
structure BuildEnv where
  outcome : Nat → PassOutcome
  pdfExists : Bool

/-- Process-wide mutable state touched by `compile_book`: the current working
directory (`os.getcwd()` / `os.chdir`). -/
structure ProcState where
  cwd : List Char

/-- One build pass: the first LaTeX run, the optional BibTeX run, or the i-th
extra reference-resolution run. -/
inductive PassKind
  | primary
  | bibliography
  | resolution (i : Nat)
deriving DecidableEq, Repr

/-- The pass sequence `compile_book` attempts: first LaTeX run, BibTeX if
`run_bibtex`, then `latex_runs` further LaTeX runs. -/
def passList (cfg : Config) : List PassKind :=
  [PassKind.primary] ++
    (if cfg.run_bibtex then [PassKind.bibliography] else []) ++
    (List.range cfg.latex_runs).map PassKind.resolution

/-- Run the passes in order starting at invocation index `i`; returns the
passes actually invoked and `true` iff no invocation raised (a raising
invocation aborts the loop by propagating its exception; a mere non-zero exit
status is only logged and never stops the sequence). -/
def runSeq (env : BuildEnv) : Nat → List PassKind → List PassKind × Bool
  | _, [] => ([], true)
  | i, p :: ps =>
    if (env.outcome i).raises then ([p], false)
    else
      let r := runSeq env (i + 1) ps
      (p :: r.1, r.2)

/-- What `compile_book` produces: the process state after return, the list of
command invocations made, and the returned `(success, pdf_path)` pair. -/
structure CompileOutcome where
  state : ProcState
  invoked : List PassKind
  success : Bool
  pdfPath : Option (List Char)

/-- `os.path.join(self.work_dir, f"{main_name}.pdf")`. -/
def pdfPathOf (workDir mainName : List Char) : List Char :=
  workDir ++ "/".data ++ mainName ++ ".pdf".data

/-- `CompilerAgent.compile_book`: record the original working directory, chdir
into the working area, run the pass sequence, then on each of the three exit
paths (artifact found / artifact missing / exception from a command) chdir
back to the original directory before returning. -/
def compile_book (cfg : Config) (env : BuildEnv) (st : ProcState)
    (workDir mainName : List Char) : CompileOutcome :=
  let originalDir := st.cwd
  let stWork : ProcState := { cwd := workDir }
  let r := runSeq env 0 (passList cfg)
  if r.2 then
    if env.pdfExists then
      { state := { stWork with cwd := originalDir }, invoked := r.1,
        success := true, pdfPath := some (pdfPathOf workDir mainName) }
    else
      { state := { stWork with cwd := originalDir }, invoked := r.1,
        success := false, pdfPath := none }
  else
    { state := { stWork with cwd := originalDir }, invoked := r.1,
      success := false, pdfPath := none }

/-! ## Fragment Store Adapter (`github_agent.py`) and Artifact Publisher -/

/-- `GitHubAgent.create_branch`: fetch the base ref (an HTTP error here
propagates), then POST the new ref; an HTTP 422 from the POST ("branch already
exists") is absorbed and `None` is returned, any other HTTP error re-raised.
`Except Nat` models raising `requests.exceptions.HTTPError` with the given
status code. -/
def create_branch (getBaseRef : Except Nat Unit) (postRef : Except Nat Unit) :
    Except Nat (Option Unit) :=
  match getBaseRef with
  | .error e => .error e
  | .ok _ =>
    match postRef with
    | .ok r => .ok (some r)
    | .error code => if code = 422 then .ok none else .error code

/-- Observable pipeline events: store reads/writes and external command
invocations. -/
inductive Event
  | fetchMain
  | assemble
  | execPass (p : PassKind)
  | listBranches
  | createBranch
  | writeFile
deriving DecidableEq, Repr

/-- `CompilerAgent.upload_compiled_book`: list branches, create the output
branch only when absent, read the PDF bytes, log that binary upload is not
implemented, and return `True` — no store write is ever performed.  An
exception escaping `create_branch` is caught by the enclosing handler, which
returns `False`. -/
def upload_compiled_book (branches : List (List Char))
    (getBaseRef postRef : Except Nat Unit) (outputBranch : List Char) :
    Bool × List Event :=
  if outputBranch ∈ branches then
    (true, [Event.listBranches])
  else
    match create_branch getBaseRef postRef with
    | .ok _ => (true, [Event.listBranches, Event.createBranch])
    | .error _ => (false, [Event.listBranches, Event.createBranch])

/-! ## Pipeline (`process_book`) -/

/-- Python truthiness of the value returned by
`GitHubAgent.get_file_content` (`None` and the empty string are both falsy,
so `if not main_content` treats a 404 and a zero-byte file alike). -/
def contentTruthy : Option (List Char) → Bool
  | none => false
  | some [] => false
  | some (_ :: _) => true

/-- External world seen by one `process_book` invocation. -/
structure PipelineEnv where
  mainContent : Option (List Char)
  chapterFiles : List (List Char)
  buildEnv : BuildEnv
  branches : List (List Char)
  getBaseRef : Except Nat Unit
  postRef : Except Nat Unit
  outputBranch : List Char
  initCwd : List Char
  workDir : List Char

/-- `CompilerAgent.process_book`: download (aborting when the main file is
missing or falsy), assemble (aborting when `update_main_file` fails), compile,
and upload; the event list records every store access and command
invocation. -/
def process_book (cfg : Config) (env : PipelineEnv) (mainName : List Char) :
    Bool × List Event :=
  if contentTruthy env.mainContent = false then
    (false, [Event.fetchMain])
  else
    match updateMainContent (env.mainContent.getD []) env.chapterFiles with
    | none => (false, [Event.fetchMain, Event.assemble])
    | some _ =>
      let co := compile_book cfg env.buildEnv { cwd := env.initCwd }
        env.workDir mainName
      let evs := Event.fetchMain :: Event.assemble ::
        co.invoked.map Event.execPass
      if co.success && co.pdfPath.isSome then
        let up := upload_compiled_book env.branches env.getBaseRef
          env.postRef env.outputBranch
        (up.1, evs ++ up.2)
      else
        (false, evs)

/-! ## Order lemmas for the chapter sort -/

theorem lexLeB_total : ∀ a b : List Char, lexLeB a b = true ∨ lexLeB b a = true := by
  intro a
  induction a with
  | nil => intro b; left; simp [lexLeB]
  | cons x xs ih =>
    intro b
    cases b with
    | nil => right; simp [lexLeB]
    | cons y ys =>
      rcases lt_trichotomy x y with h | h | h
      · left; simp [lexLeB, h]
      · subst h
        rcases ih ys with h2 | h2
        · left; simp [lexLeB, h2]
        · right; simp [lexLeB, h2]
      · right; simp [lexLeB, h]

theorem lexLeB_trans : ∀ a b c : List Char,
    lexLeB a b = true → lexLeB b c = true → lexLeB a c = true := by
  intro a
  induction a with
  | nil => intro b c _ _; simp [lexLeB]
  | cons x xs ih =>
    intro b c hab hbc
    cases b with
    | nil => simp [lexLeB] at hab
    | cons y ys =>
      cases c with
      | nil => simp [lexLeB] at hbc
      | cons z zs =>
        simp only [lexLeB] at hab hbc ⊢
        split at hab
        · rename_i hxy
          split at hbc
          · rename_i hyz
            simp [lt_trans hxy hyz]
          · split at hbc
            · rename_i hyz; subst hyz; simp [hxy]
            · exact absurd hbc (by simp)
        · split at hab
          · rename_i hxy; subst hxy
            split at hbc
            · rename_i hyz; simp [hyz]
            · split at hbc
              · rename_i hyz; subst hyz
                simp only [if_pos rfl]
                split
                · rfl
                · exact ih ys zs hab hbc
              · exact absurd hbc (by simp)
          · exact absurd hab (by simp)

theorem lexLeB_antisymm : ∀ a b : List Char,
    lexLeB a b = true → lexLeB b a = true → a = b := by
  intro a
  induction a with
  | nil =>
    intro b _ hba
    cases b with
    | nil => rfl
    | cons y ys => simp [lexLeB] at hba
  | cons x xs ih =>
    intro b hab hba
    cases b with
    | nil => simp [lexLeB] at hab
    | cons y ys =>
      simp only [lexLeB] at hab hba
      split at hab
      · rename_i hxy
        rw [if_neg (lt_asymm hxy), if_neg (ne_of_gt hxy)] at hba
        exact absurd hba (by simp)
      · split at hab
        · rename_i hxy; subst hxy
          rw [if_neg (lt_irrefl x), if_pos rfl] at hba
          rw [ih ys hab hba]
        · exact absurd hab (by simp)

instance : IsTotal (Nat × List Char) pairLe where
  total a b := by
    unfold pairLe pairLeB
    rcases lt_trichotomy a.1 b.1 with h | h | h
    · left; simp [h]
    · rcases lexLeB_total a.2 b.2 with h2 | h2
      · left; simp [h, h2]
      · right; simp [h.symm, h2, lt_irrefl]
    · right; simp [h]

instance : IsTrans (Nat × List Char) pairLe where
  trans a b c hab hbc := by
    unfold pairLe pairLeB at hab hbc ⊢
    split at hab
    · rename_i h1
      split at hbc
      · rename_i h2; simp [lt_trans h1 h2]
      · split at hbc
        · rename_i h2; simp [h2 ▸ h1]
        · exact absurd hbc (by simp)
    · split at hab
      · rename_i h1
        split at hbc
        · rename_i h2; simp [h1 ▸ h2]
        · split at hbc
          · rename_i h2
            rw [if_neg (by omega), if_pos (h1.trans h2)]
            exact lexLeB_trans a.2 b.2 c.2 hab hbc
          · exact absurd hbc (by simp)
      · exact absurd hab (by simp)

instance : IsAntisymm (Nat × List Char) pairLe where
  antisymm a b hab hba := by
    unfold pairLe pairLeB at hab hba
    split at hab
    · rename_i h1
      rw [if_neg (by omega), if_neg (by omega)] at hba
      exact absurd hba (by simp)
    · split at hab
      · rename_i h1
        rw [if_neg (by omega), if_pos h1.symm] at hba
        have h2 := lexLeB_antisymm a.2 b.2 hab hba
        exact Prod.ext h1 h2
      · exact absurd hab (by simp)

/-! ## Theorems -/

/-- When no command invocation raises, every configured pass is executed in
order and the loop completes. -/
theorem runSeq_no_raise (env : BuildEnv)
    (h : ∀ i, (env.outcome i).raises = false) :
    ∀ (l : List PassKind) (n : Nat), runSeq env n l = (l, true) := by
  intro l
  induction l with
  | nil => intro n; rfl
  | cons p ps ih => intro n; simp [runSeq, h n, ih (n + 1)]

/-- C2: for every configuration and every sequence of pass exit codes (no
invocation raising), `compile_book` reports success exactly when the expected
artifact `working-dir/<main-name>.pdf` exists after the passes: it returns
`(True, pdf_path)` when the file exists and `(False, None)` when it does not,
with no dependence on any pass's exit status. -/
theorem compile_book_success_iff_artifact (cfg : Config) (env : BuildEnv)
    (st : ProcState) (workDir mainName : List Char)
    (h : ∀ i, (env.outcome i).raises = false) :
    (compile_book cfg env st workDir mainName).success = env.pdfExists ∧
    (compile_book cfg env st workDir mainName).pdfPath =
      (if env.pdfExists then some (pdfPathOf workDir mainName) else none) := by
  cases hp : env.pdfExists <;>
    simp [compile_book, runSeq_no_raise env h, hp]

/-- Environment for the witnesses: all passes exit with status 1 (non-zero)
without raising, and the PDF exists. -/
def envAllFailExitPdf : BuildEnv :=
  { outcome := fun _ => { raises := false, exitCode := 1 }, pdfExists := true }

theorem compile_book_success_iff_artifact_witness :
    (compile_book ⟨true, 2⟩ envAllFailExitPdf ⟨"/home".data⟩ "/work".data
      "main".data).success = true :=
  (compile_book_success_iff_artifact ⟨true, 2⟩ envAllFailExitPdf ⟨"/home".data⟩
    "/work".data "main".data (fun _ => rfl)).1

/-- C6: pass transitions are unconditional — with the bibliography pass
disabled and `k` resolution passes configured, and no invocation raising,
`compile_book` invokes the external command exactly `k + 1` times, one primary
pass followed by the `k` resolution passes in order, whatever the exit
statuses are. -/
theorem compile_book_pass_sequence (k : Nat) (env : BuildEnv) (st : ProcState)
    (workDir mainName : List Char)
    (h : ∀ i, (env.outcome i).raises = false) :
    (compile_book ⟨false, k⟩ env st workDir mainName).invoked =
      PassKind.primary :: (List.range k).map PassKind.resolution ∧
    (compile_book ⟨false, k⟩ env st workDir mainName).invoked.length = k + 1 := by
  constructor
  · cases hp : env.pdfExists <;>
      simp [compile_book, runSeq_no_raise env h, hp, passList]
  · cases hp : env.pdfExists <;>
      simp [compile_book, runSeq_no_raise env h, hp, passList]

theorem compile_book_pass_sequence_witness :
    (compile_book ⟨false, 1⟩ envAllFailExitPdf ⟨"/home".data⟩ "/work".data
      "main".data).invoked.length = 2 :=
  (compile_book_pass_sequence 1 envAllFailExitPdf ⟨"/home".data⟩ "/work".data
    "main".data (fun _ => rfl)).2

/-- C9: on every exit path of `compile_book` — artifact found, artifact
missing, or an exception raised during any command execution — the working
directory after return equals the directory that was current when
`compile_book` changed into the working area. -/
theorem compile_book_restores_cwd (cfg : Config) (env : BuildEnv)
    (st : ProcState) (workDir mainName : List Char) :
    (compile_book cfg env st workDir mainName).state.cwd = st.cwd := by
  cases hr : (runSeq env 0 (passList cfg)).2 <;> cases hp : env.pdfExists <;>
    simp [compile_book, hr, hp]

/-- C7 (code evaluated at the failing input): `upload_compiled_book` returns
`True` while performing no store write at all — whether the output branch
already exists or has to be created, the event trace contains no `writeFile`,
so no artifact or source transfer ever happens. -/
theorem upload_returns_true_without_store_write :
    upload_compiled_book ["compiled-output".data] (.ok ()) (.ok ())
      "compiled-output".data = (true, [Event.listBranches]) ∧
    upload_compiled_book [] (.ok ()) (.ok ()) "compiled-output".data =
      (true, [Event.listBranches, Event.createBranch]) ∧
    Event.writeFile ∉ (upload_compiled_book ["compiled-output".data] (.ok ())
      (.ok ()) "compiled-output".data).2 ∧
    Event.writeFile ∉ (upload_compiled_book [] (.ok ()) (.ok ())
      "compiled-output".data).2 := by
  decide

/-- C8: publishing to an existing branch is idempotent —
`upload_compiled_book` skips creation when the branch is listed, and
`create_branch` absorbs an HTTP 422 from the ref POST ("branch already
exists") as a `None` no-op while re-raising every other store error. -/
theorem publish_branch_idempotent (branches : List (List Char))
    (g p : Except Nat Unit) (ob : List Char) (c : Nat)
    (hmem : ob ∈ branches) (hc : c ≠ 422) :
    upload_compiled_book branches g p ob = (true, [Event.listBranches]) ∧
    create_branch (.ok ()) (.error 422) = .ok none ∧
    create_branch (.ok ()) (.error c) = .error c := by
  refine ⟨?_, rfl, ?_⟩
  · simp [upload_compiled_book, hmem]
  · simp [create_branch, hc]

theorem publish_branch_idempotent_witness :
    upload_compiled_book ["out".data] (.ok ()) (.ok ()) "out".data =
      (true, [Event.listBranches]) ∧
    create_branch (.ok ()) (.error 500) = .error 500 :=
  ⟨(publish_branch_idempotent ["out".data] (.ok ()) (.ok ()) "out".data 500
      (by decide) (by decide)).1,
    (publish_branch_idempotent ["out".data] (.ok ()) (.ok ()) "out".data 500
      (by decide) (by decide)).2.2⟩

/-- C10: a master document that exists in the store but has empty content is
treated identically to a missing master document — both make
`download_repository_files` report failure, and `process_book` aborts right
after the fetch, before assembly or any build pass. -/
theorem empty_master_treated_as_missing (cfg : Config) (env : PipelineEnv)
    (mainName : List Char) :
    process_book cfg { env with mainContent := some [] } mainName =
      (false, [Event.fetchMain]) ∧
    process_book cfg { env with mainContent := none } mainName =
      (false, [Event.fetchMain]) ∧
    process_book cfg { env with mainContent := some [] } mainName =
      process_book cfg { env with mainContent := none } mainName :=
  ⟨rfl, rfl, rfl⟩

/-- C3: when the begin-document or end-document marker is absent from the
master text, the assembly step fails (`update_main_file` returns `False`),
`process_book` returns `False`, and no external build command is ever
invoked. -/
theorem missing_marker_aborts (cfg : Config) (env : PipelineEnv)
    (mainName c : List Char) (hc : env.mainContent = some c)
    (hmiss : firstIdx beginMarker c = none ∨ firstIdx endMarker c = none) :
    updateMainContent c env.chapterFiles = none ∧
    (process_book cfg env mainName).1 = false ∧
    ∀ p, Event.execPass p ∉ (process_book cfg env mainName).2 := by
  have hupd : updateMainContent c env.chapterFiles = none := by
    unfold updateMainContent
    cases hb : firstIdx beginMarker c with
    | none => cases he : firstIdx endMarker c <;> rfl
    | some ds =>
      cases he : firstIdx endMarker c with
      | none => rfl
      | some de => simp_all
  refine ⟨hupd, ?_, ?_⟩ <;>
  · simp only [process_book, hc, hupd, Option.getD_some]
    split <;> simp

theorem missing_marker_aborts_witness :
    updateMainContent "no markers at all".data [] = none :=
  (missing_marker_aborts ⟨true, 2⟩
    { mainContent := some "no markers at all".data, chapterFiles := [],
      buildEnv := envAllFailExitPdf, branches := [], getBaseRef := .ok (),
      postRef := .ok (), outputBranch := "out".data, initCwd := "/home".data,
      workDir := "/work".data }
    "main".data "no markers at all".data rfl (Or.inl (by decide))).1

/-- C4: for every chapter-directory listing, the generated directive block
has exactly one directive per parsed chapter file (the sorted list is a
permutation of the parse results), the directives are ordered ascending by
chapter ordinal, the result is independent of the discovery order of the
files, and ordinals {3,1,2} come out as 1,2,3. -/
theorem chapter_ordering (names names' : List (List Char))
    (hp : names.Perm names') :
    List.Sorted (fun a b : Nat => a ≤ b) ((sortChapters names).map Prod.fst) ∧
    (sortChapters names).Perm (names.filterMap parseChapterFile) ∧
    sortChapters names = sortChapters names' ∧
    chapterIncludesBlock (sortChapters
      ["chapter3.tex".data, "chapter1.tex".data, "chapter2.tex".data]) =
      ("\n\n% Generated chapter includes\n\\include{chapters/chapter1}\n" ++
        "\\include{chapters/chapter2}\n\\include{chapters/chapter3}\n").data := by
  refine ⟨?_, List.perm_insertionSort pairLe _, ?_, by decide⟩
  · have hs := List.sorted_insertionSort pairLe (names.filterMap parseChapterFile)
    have himp : ∀ a b : Nat × List Char, pairLe a b → a.1 ≤ b.1 := by
      intro a b hab
      unfold pairLe pairLeB at hab
      split at hab
      · rename_i h1; exact le_of_lt h1
      · split at hab
        · rename_i h1; exact le_of_eq h1
        · exact absurd hab (by simp)
    exact List.Pairwise.map Prod.fst himp hs
  · apply List.eq_of_perm_of_sorted (r := pairLe)
    · exact (List.perm_insertionSort pairLe _).trans
        ((hp.filterMap parseChapterFile).trans
          (List.perm_insertionSort pairLe _).symm)
    · exact List.sorted_insertionSort pairLe _
    · exact List.sorted_insertionSort pairLe _

theorem chapter_ordering_witness :
    sortChapters ["chapter1.tex".data, "chapter2.tex".data] =
      sortChapters ["chapter2.tex".data, "chapter1.tex".data] :=
  (chapter_ordering ["chapter1.tex".data, "chapter2.tex".data]
    ["chapter2.tex".data, "chapter1.tex".data]
    (List.Perm.swap "chapter2.tex".data "chapter1.tex".data [])).2.2.1

/-- Master text used to exhibit the non-idempotence of the assembler. -/
def docOne : List Char :=
  "\\begin{document}\n\\tableofcontents\nBody text.\n\\end{document}\n".data

/-- Chapter listing used to exhibit the non-idempotence of the assembler. -/
def filesOne : List (List Char) := ["chapter1.tex".data]

set_option maxRecDepth 100000

/-- C1 (code evaluated at the failing input): the Document Assembler is not
idempotent — on a well-formed master document the first run succeeds, but
running the transformation again on its own output yields different bytes
(an extra newline accumulates before the table-of-contents line and a stale
`% Generated chapter includes` line is left in the body). -/
theorem assembler_not_idempotent :
    (updateMainContent docOne filesOne).isSome = true ∧
    (updateMainContent docOne filesOne).bind
        (fun s => updateMainContent s filesOne) ≠
      updateMainContent docOne filesOne := by
  decide

/-- Shape of every successful assembler output: the input up to and including
the begin-document marker, an inserted newline, the front-matter split, the
generated directive block, the stripped body, and the terminator line. -/
theorem updateMainContent_shape (content : List Char)
    (files : List (List Char)) (i j : Nat)
    (hb : firstIdx beginMarker content = some i)
    (he : firstIdx endMarker content = some j) :
    ∃ fm rest, updateMainContent content files =
      some (content.take (i + beginMarker.length) ++ "\n".data ++ fm ++
        "\n".data ++ chapterIncludesBlock (sortChapters files) ++ "\n".data ++
        pyStrip (stripIncludes rest) ++ "\n\\end{document}\n".data) := by
  unfold updateMainContent
  rw [hb, he]
  exact ⟨_, _, rfl⟩

/-- C5 amended: for every master text containing both markers, the assembler
preserves verbatim, as a prefix of its output, everything up to and including
the begin-document marker; but the output always ends with the end-document
terminator followed by a single newline, so the input's closing matter after
the terminator is not preserved (see the counterexample
`closing_matter_not_preserved`). -/
theorem assembler_prefix_and_terminator (content : List Char)
    (files : List (List Char)) (i j : Nat)
    (hb : firstIdx beginMarker content = some i)
    (he : firstIdx endMarker content = some j) :
    ∃ mid, updateMainContent content files =
      some (content.take (i + beginMarker.length) ++
        '\n' :: (mid ++ "\\end{document}\n".data)) := by
  obtain ⟨fm, rest, hshape⟩ := updateMainContent_shape content files i j hb he
  refine ⟨fm ++ "\n".data ++ chapterIncludesBlock (sortChapters files) ++
    "\n".data ++ pyStrip (stripIncludes rest) ++ ['\n'], ?_⟩
  rw [hshape]
  have h1 : "\n\\end{document}\n".data = '\n' :: "\\end{document}\n".data := rfl
  have h2 : "\n".data = ['\n'] := rfl
  rw [h1, h2]
  simp [List.append_assoc]

theorem assembler_prefix_and_terminator_witness :
    ∃ mid, updateMainContent "A\\begin{document}X\\end{document}B".data [] =
      some ("A\\begin{document}X\\end{document}B".data.take
          (1 + beginMarker.length) ++
        '\n' :: (mid ++ "\\end{document}\n".data)) :=
  assembler_prefix_and_terminator "A\\begin{document}X\\end{document}B".data
    [] 1 18 (by decide) (by decide)

/-- Master text with closing matter (`POSTLUDE`) after the terminator. -/
def docPost : List Char :=
  "\\begin{document}\nB\n\\end{document}\nPOSTLUDE".data

/-- C5 counterexample: on a well-formed master document with text after the
end-document terminator, the assembler succeeds but its output nowhere
contains that closing matter — it is discarded, not preserved verbatim. -/
theorem closing_matter_not_preserved :
    (updateMainContent docPost []).isSome = true ∧
    firstIdx "POSTLUDE".data ((updateMainContent docPost []).getD []) = none ∧
    firstIdx "POSTLUDE".data docPost = some 34 := by
  decide

end Agitnt
